import Mathlib

/-!
Shallow embedding of the meal calorie reconciliation, payload normalization,
and food-reference search logic of the nutrilens web client, translated from
`src/meals/MealsHistoryScreen.tsx` and `src/meals/FoodAnalyzeScreen.tsx`.

Modelling conventions:
* ECMAScript `number` values are modelled as `ℚ`.  The values flowing through
  this code are small decimals; the specification itself states (§4.1) that
  exact floating-point tie behaviour of rounding is not load-bearing.
* `Math.round x` is ECMAScript round-half-toward-positive-infinity, i.e.
  `⌊x + 1/2⌋`.
* Truthiness of a JS number (`if (calories && ...)`) is `≠ 0`; there is no
  `NaN` among `ℚ` values, so `NaN` is modelled as `Option.none` where it can
  arise (the result of a failed numeric conversion, `jsToNumber`).
* The runtime value of a field of a JSON payload is not constrained by the
  TypeScript annotation on it; fields that the source guards with
  `Number(x) || 0` are therefore modelled as arbitrary `JSValue`s, which is
  the domain the specification documents for the normalizer.
* JS strings are modelled as `String`, with the string operations
  (`toLowerCase`, `normalize("NFD")`, `trim`, `includes`, numeric parsing)
  re-implemented over `List Char` on the character fragment this data
  exercises (ASCII plus the Latin-1 letters with diacritics; no exponent or
  hex numeric literals, which never occur here).
-/

namespace Nutrilens

/-- ECMAScript `Math.round`: round half toward positive infinity. -/
def jsRound (q : ℚ) : ℤ := (q + 1/2).floor

/-! ## JS value model and numeric coercion -/

/-- A JSON/JS runtime value as far as the normalization boundary is
concerned: a number, a string, `null`, or `undefined` (absent field). -/
inductive JSValue where
  | num (q : ℚ)
  | str (s : String)
  | null
  | undefined
deriving DecidableEq

/-- Numeric value of a decimal digit character. -/
def digitVal (c : Char) : ℕ := c.toNat - 48

/-- Digits to the natural number they denote (most significant first). -/
def digitsToNat (acc : ℕ) : List Char → ℕ
  | [] => acc
  | c :: cs => digitsToNat (acc * 10 + digitVal c) cs

/-- ECMAScript `String.prototype.trim` on the character list (ASCII
whitespace fragment). -/
def jsTrim (l : List Char) : List Char :=
  ((l.dropWhile Char.isWhitespace).reverse.dropWhile Char.isWhitespace).reverse

/-- ECMAScript `Number(string)` on the decimal fragment
`[+-]? digits [. digits]?` (with "", whitespace-only ↦ 0), returning `none`
for `NaN`.  The value is assembled with `mkRat` so that it is a single
normalized rational.  Exponent, hex, binary, `Infinity` forms are outside
the fragment this repository's data exercises. -/
def parseJSNumber (s : String) : Option ℚ :=
  let t := jsTrim s.data
  if t.isEmpty then some 0
  else
    let sgn : ℤ × List Char :=
      match t with
      | '+' :: r => (1, r)
      | '-' :: r => (-1, r)
      | r => (1, r)
    let ip := sgn.2.takeWhile Char.isDigit
    let rest := sgn.2.dropWhile Char.isDigit
    match rest with
    | [] => if ip.isEmpty then none else some (mkRat (sgn.1 * digitsToNat 0 ip) 1)
    | '.' :: fr =>
      if fr.all Char.isDigit && !(ip.isEmpty && fr.isEmpty) then
        some (mkRat (sgn.1 * digitsToNat 0 (ip ++ fr)) (10 ^ fr.length))
      else none
    | _ => none

/-- ECMAScript `ToNumber` on the values of the model (`none` = `NaN`):
numbers pass through, `null ↦ 0`, `undefined ↦ NaN`, strings are parsed. -/
def jsToNumber : JSValue → Option ℚ
  | .num q => some q
  | .str s => parseJSNumber s
  | .null => some 0
  | .undefined => none

/-- `Number(x) || 0`, the defensive numeric coercion the source applies to
every numeric payload field: `NaN ↦ 0`, `±0 ↦ 0`, any other number is kept.
On the `ℚ` model this is exactly `(jsToNumber x).getD 0`. -/
def numOr0 (v : JSValue) : ℚ := (jsToNumber v).getD 0

/-! ## String lowering (fragment of `String.prototype.toLowerCase`) -/

/-- Lower-casing of one character: ASCII `A`–`Z` and the Latin-1 uppercase
letters `À`–`Þ` (except `×`) map down by 32, as in Unicode simple case
folding; everything else is fixed.  This is the fragment of JS
`toLowerCase` exercised by the meal-type / source enums and the food
descriptions. -/
def jsToLowerChar (c : Char) : Char :=
  if ('A' ≤ c ∧ c ≤ 'Z') ∨ (0xC0 ≤ c.toNat ∧ c.toNat ≤ 0xDE ∧ c.toNat ≠ 0xD7) then
    Char.ofNat (c.toNat + 32)
  else c

/-- JS `s.toLowerCase()` over the modelled fragment. -/
def jsToLower (s : String) : String := String.mk (s.data.map jsToLowerChar)

/-! ## Enum normalization (`MealsHistoryScreen.tsx`, lines 68-79 and 120-123)

```js
function normalizeMealType(v: string): MealType {
  const s = String(v || "").toLowerCase();
  const allowed: MealType[] = ["breakfast","lunch","snack","dinner","supper","other"];
  return allowed.includes(s as MealType) ? (s as MealType) : "other";
}
```
-/

def allowedMealTypes : List String :=
  ["breakfast", "lunch", "snack", "dinner", "supper", "other"]

/-- `normalizeMealType` from `MealsHistoryScreen.tsx:68-79`.  On a string
input `String(v || "")` is the identity (`"" || ""` is `""`). -/
def normalizeMealType (v : String) : String :=
  if allowedMealTypes.contains (jsToLower v) then jsToLower v else "other"

/-- The `source` normalization expression inlined at
`MealsHistoryScreen.tsx:120-123` and `FoodAnalyzeScreen.tsx:457-460`:
```js
String(it.source).toLowerCase() === "vision" || it.source === "VISION"
  ? "vision" : "manual"
```
-/
def normalizeSource (s : String) : String :=
  if jsToLower s = "vision" ∨ s = "VISION" then "vision" else "manual"

/-! ## Reconciler (`MealsHistoryScreen.tsx`, lines 30-46)

```js
// Se por algum motivo calories vier 0, recalcula pelo padrão
function getItemCalories(kcalPer100g, grams, calories) {
  if (calories && calories > 0) return Math.round(calories);
  return Math.round((kcalPer100g * grams) / 100);
}
```
-/

/-- `getItemCalories` from `MealsHistoryScreen.tsx:31-34`.  The guard
`calories && calories > 0` is numeric truthiness (`≠ 0`) conjoined with the
comparison, exactly as in the source. -/
def getItemCalories (kcalPer100g grams calories : ℚ) : ℤ :=
  if calories ≠ 0 ∧ 0 < calories then jsRound calories
  else jsRound ((kcalPer100g * grams) / 100)

/-- Canonical saved item (`src/types.ts`, `SavedMealItem`).  `confidence` is
the value `it.confidence ?? undefined` produced at the normalization
boundary (`none` = `undefined`). -/
structure SavedMealItem where
  id : String
  name : String
  grams : ℚ
  kcalPer100g : ℚ
  calories : ℚ
  confidence : Option ℚ
  source : String
deriving DecidableEq

/-- Canonical saved meal (`src/types.ts`, `SavedMeal`). -/
structure SavedMeal where
  id : String
  userId : String
  mealType : String
  dateTime : String
  totalCalories : ℚ
  photoUrl : Option String
  createdAt : String
  photoDataUrl : Option String
  items : List SavedMealItem
deriving DecidableEq

/-- `getMealTotalCalories` from `MealsHistoryScreen.tsx:37-46`:
uses `totalCalories` when truthy and positive, else reduces over the items. -/
def getMealTotalCalories (meal : SavedMeal) : ℤ :=
  if meal.totalCalories ≠ 0 ∧ 0 < meal.totalCalories then
    jsRound meal.totalCalories
  else
    meal.items.foldl
      (fun acc it => acc + getItemCalories it.kcalPer100g it.grams it.calories) 0

/-! ## Inbound payload records (the `MealItemApi` / `MealApi` types of both
screens).  String-typed fields that the source passes through `String(...)`
are kept as `String`; numeric fields that the source guards with
`Number(x) || 0` are modelled as raw `JSValue`s, since a JSON payload can
put anything there; `confidence` is typed `number | null` and the source
applies `?? undefined` to it, so it is `Option ℚ` (`none` = `null`). -/

structure MealItemApi where
  id : String
  name : String
  grams : JSValue
  caloriesPer100g : JSValue
  calories : JSValue
  confidence : Option ℚ
  source : String
deriving DecidableEq

structure MealApi where
  id : String
  userId : String
  type : String
  takenAt : String
  createdAt : Option String
  totalCalories : JSValue
  imagePath : Option String
  items : List MealItemApi
deriving DecidableEq

/-- The item mapping shared verbatim by `mapApiMealToSavedMeal`
(`MealsHistoryScreen.tsx:113-124`) and `handleSaveMealClick`
(`FoodAnalyzeScreen.tsx:450-461`):
```js
items.map((it) => ({
  id: String(it.id), name: String(it.name),
  grams: Number(it.grams) || 0,
  kcalPer100g: Number(it.caloriesPer100g) || 0,
  calories: Number(it.calories) || 0,
  confidence: it.confidence ?? undefined,
  source: String(it.source).toLowerCase() === "vision" || it.source === "VISION"
    ? "vision" : "manual",
}))
```
-/
def mapApiItem (it : MealItemApi) : SavedMealItem :=
  { id := it.id
    name := it.name
    grams := numOr0 it.grams
    kcalPer100g := numOr0 it.caloriesPer100g
    calories := numOr0 it.calories
    confidence := it.confidence
    source := normalizeSource it.source }

/-! ## Date model

The mappers call `new Date(s).toISOString()`.  `toISOString` throws a
`RangeError` when the date is invalid, i.e. when `s` did not parse; this is
the one place where the "normalizer" can throw, so the mappers below return
`Except Unit SavedMeal`.  `parseISODate` models the ECMAScript date-time
string parser on the fragment the backend emits — `"YYYY-MM-DD"` and
`"YYYY-MM-DDTHH:MM:SS.mmmZ"`, both read as UTC — returning epoch
milliseconds, `none` for an invalid date.  `formatISO` is
`Date.prototype.toISOString` (years 0–9999).  Civil/day conversions use the
standard era-based proleptic-Gregorian algorithms. -/

def daysFromCivil (y : ℤ) (m d : ℕ) : ℤ :=
  let y2 : ℤ := if m ≤ 2 then y - 1 else y
  let era : ℤ := Int.ediv y2 400
  let yoe : ℕ := (y2 - era * 400).toNat
  let doy : ℕ := (153 * (if 2 < m then m - 3 else m + 9) + 2) / 5 + d - 1
  let doe : ℕ := yoe * 365 + yoe / 4 - yoe / 100 + doy
  era * 146097 + (doe : ℤ) - 719468

def civilFromDays (z0 : ℤ) : ℤ × ℕ × ℕ :=
  let z : ℤ := z0 + 719468
  let era : ℤ := Int.ediv z 146097
  let doe : ℕ := (z - era * 146097).toNat
  let yoe : ℕ := (doe - doe / 1460 + doe / 36524 - doe / 146096) / 365
  let y : ℤ := (yoe : ℤ) + era * 400
  let doy : ℕ := doe - (365 * yoe + yoe / 4 - yoe / 100)
  let mp : ℕ := (5 * doy + 2) / 153
  let d : ℕ := doy - (153 * mp + 2) / 5 + 1
  let m : ℕ := if mp < 10 then mp + 3 else mp - 9
  (if m ≤ 2 then y + 1 else y, m, d)

def pad2 (n : ℕ) : String := if n < 10 then "0" ++ toString n else toString n

def pad3 (n : ℕ) : String :=
  if n < 10 then "00" ++ toString n
  else if n < 100 then "0" ++ toString n
  else toString n

def pad4 (n : ℕ) : String :=
  if n < 10 then "000" ++ toString n
  else if n < 100 then "00" ++ toString n
  else if n < 1000 then "0" ++ toString n
  else toString n

/-- `Date.prototype.toISOString` on a valid date value (epoch ms). -/
def formatISO (t : ℤ) : String :=
  let days : ℤ := Int.ediv t 86400000
  let ms : ℕ := (t - days * 86400000).toNat
  let c := civilFromDays days
  pad4 c.1.toNat ++ "-" ++ pad2 c.2.1 ++ "-" ++ pad2 c.2.2 ++ "T" ++
    pad2 (ms / 3600000) ++ ":" ++ pad2 (ms % 3600000 / 60000) ++ ":" ++
    pad2 (ms % 60000 / 1000) ++ "." ++ pad3 (ms % 1000) ++ "Z"

/-- Validated civil fields to epoch milliseconds (`none` = Invalid Date). -/
def mkDateMillis (ys ms ds : List Char) (hh mm ss mmm : ℕ) : Option ℤ :=
  if ys.all Char.isDigit ∧ ms.all Char.isDigit ∧ ds.all Char.isDigit then
    let y := digitsToNat 0 ys
    let mo := digitsToNat 0 ms
    let d := digitsToNat 0 ds
    if 1 ≤ mo ∧ mo ≤ 12 ∧ 1 ≤ d ∧ d ≤ 31 ∧ hh ≤ 23 ∧ mm ≤ 59 ∧ ss ≤ 59 then
      some (daysFromCivil y mo d * 86400000 +
        ((hh * 3600000 + mm * 60000 + ss * 1000 + mmm : ℕ) : ℤ))
    else none
  else none

/-- `new Date(s)` (ECMAScript date-time string format) on the fragment the
backend emits; `none` is an Invalid Date. -/
def parseISODate (s : String) : Option ℤ :=
  match s.data with
  | [y1,y2,y3,y4,'-',m1,m2,'-',d1,d2] =>
    mkDateMillis [y1,y2,y3,y4] [m1,m2] [d1,d2] 0 0 0 0
  | [y1,y2,y3,y4,'-',m1,m2,'-',d1,d2,'T',h1,h2,':',n1,n2,':',s1,s2,'.',f1,f2,f3,'Z'] =>
    if [h1,h2,n1,n2,s1,s2,f1,f2,f3].all Char.isDigit then
      mkDateMillis [y1,y2,y3,y4] [m1,m2] [d1,d2]
        (digitsToNat 0 [h1,h2]) (digitsToNat 0 [n1,n2])
        (digitsToNat 0 [s1,s2]) (digitsToNat 0 [f1,f2,f3])
    else none
  | _ => none

/-! ## photoUrl derivation and the two meal mappers -/

/-- The `photoUrl` field expression of `mapApiMealToSavedMeal`
(`MealsHistoryScreen.tsx:133`):
`m.imagePath ? API_BASE_URL + m.imagePath : undefined` — string truthiness,
so `null`/`undefined`/`""` all yield `undefined`. -/
def derivePhotoUrlHistory (baseURL : String) (imagePath : Option String) :
    Option String :=
  match imagePath with
  | some p => if p = "" then none else some (baseURL ++ p)
  | none => none

/-- The `photoUrl` field expression of `handleSaveMealClick`
(`FoodAnalyzeScreen.tsx:470`): `saved.imagePath ?? undefined` — nullish
coalescing, the value (including `""`) passes through un-prefixed. -/
def derivePhotoUrlSave (imagePath : Option String) : Option String :=
  imagePath

/-- `mapApiMealToSavedMeal` from `MealsHistoryScreen.tsx:112-136`.  The two
`new Date(...).toISOString()` field initializers are the throw points, in
object-literal evaluation order (`dateTime` from `takenAt` first, then
`createdAt` from `createdAt ?? takenAt`). -/
def mapApiMealToSavedMeal (baseURL : String) (m : MealApi) :
    Except Unit SavedMeal :=
  match parseISODate m.takenAt, parseISODate (m.createdAt.getD m.takenAt) with
  | some t1, some t2 =>
    Except.ok
      { id := m.id
        userId := m.userId
        mealType := normalizeMealType m.type
        dateTime := formatISO t1
        totalCalories := numOr0 m.totalCalories
        photoUrl := derivePhotoUrlHistory baseURL m.imagePath
        createdAt := formatISO t2
        photoDataUrl := none
        items := m.items.map mapApiItem }
  | _, _ => Except.error ()

/-- The response mapping of `handleSaveMealClick` from
`FoodAnalyzeScreen.tsx:448-473`: same item mapping and date handling, but
`mealType` is taken verbatim from `saved.type`, `photoUrl` is the raw
`saved.imagePath ?? undefined`, and the local preview data-URL is attached. -/
def mapSaveResponseToSavedMeal (previewDataUrl : String) (saved : MealApi) :
    Except Unit SavedMeal :=
  match parseISODate saved.takenAt,
      parseISODate (saved.createdAt.getD saved.takenAt) with
  | some t1, some t2 =>
    Except.ok
      { id := saved.id
        userId := saved.userId
        mealType := saved.type
        dateTime := formatISO t1
        totalCalories := numOr0 saved.totalCalories
        photoUrl := derivePhotoUrlSave saved.imagePath
        createdAt := formatISO t2
        photoDataUrl := some previewDataUrl
        items := saved.items.map mapApiItem }
  | _, _ => Except.error ()

/-! ## Food reference search (`FoodAnalyzeScreen.tsx`, lines 53-59, 90-102)

```js
function normalizeSearch(s: string) {
  return s.toLowerCase().normalize("NFD").replace(/[\u0300-\u036f]/g, "").trim();
}
const filteredFoods = useMemo(() => {
  const q = normalizeSearch(foodQuery);
  if (!q) return alimentos.slice(0, 30);
  const out: Alimento[] = [];
  for (let i = 0; i < alimentos.length; i++) {
    const a = alimentos[i];
    const hay = normalizeSearch(a.description);
    if (hay.includes(q)) out.push(a);
    if (out.length >= 50) break;
  }
  return out;
}, [foodQuery]);
```

The search never mutates the table: it is a pure function of the entry list
and the query (`filteredFoods` below takes the table as an argument, where
the source closes over the bundled constant `alimentos`).
-/

def isCombiningMark (c : Char) : Bool := 0x300 ≤ c.toNat && c.toNat ≤ 0x36F

def nfdChar (c : Char) : List Char :=
  match c with
  | 'à' => ['a', '̀']
  | 'á' => ['a', '́']
  | 'â' => ['a', '̂']
  | 'ã' => ['a', '̃']
  | 'ä' => ['a', '̈']
  | 'å' => ['a', '̊']
  | 'ç' => ['c', '̧']
  | 'è' => ['e', '̀']
  | 'é' => ['e', '́']
  | 'ê' => ['e', '̂']
  | 'ë' => ['e', '̈']
  | 'ì' => ['i', '̀']
  | 'í' => ['i', '́']
  | 'î' => ['i', '̂']
  | 'ï' => ['i', '̈']
  | 'ñ' => ['n', '̃']
  | 'ò' => ['o', '̀']
  | 'ó' => ['o', '́']
  | 'ô' => ['o', '̂']
  | 'õ' => ['o', '̃']
  | 'ö' => ['o', '̈']
  | 'ù' => ['u', '̀']
  | 'ú' => ['u', '́']
  | 'û' => ['u', '̂']
  | 'ü' => ['u', '̈']
  | 'ý' => ['y', '́']
  | 'ÿ' => ['y', '̈']
  | _ => [c]

def normalizeSearch (s : String) : String :=
  String.mk (jsTrim (((s.data.map jsToLowerChar).flatMap nfdChar).filter
    (fun c => !(isCombiningMark c))))

def startsWithChars : List Char → List Char → Bool
  | _, [] => true
  | [], _ :: _ => false
  | a :: as, b :: bs => a == b && startsWithChars as bs

def containsSubChars (hay needle : List Char) : Bool :=
  match hay with
  | [] => needle.isEmpty
  | _ :: t => startsWithChars hay needle || containsSubChars t needle

def containsStr (hay needle : String) : Bool :=
  containsSubChars hay.data needle.data

structure Alimento where
  id : ℤ
  description : String
  category : Option String
  energy_kcal : ℚ
deriving DecidableEq

def searchScan (q : String) (count : ℕ) : List Alimento → List Alimento
  | [] => []
  | a :: rest =>
    if containsStr (normalizeSearch a.description) q then
      if 50 ≤ count + 1 then [a]
      else a :: searchScan q (count + 1) rest
    else searchScan q count rest

def filteredFoods (entries : List Alimento) (foodQuery : String) :
    List Alimento :=
  if normalizeSearch foodQuery = "" then entries.take 30
  else searchScan (normalizeSearch foodQuery) 0 entries


/-! ## History ordering (`MealsHistoryScreen.tsx`, lines 155-159)

```js
mapped.sort(
  (a, b) =>
    new Date(b.dateTime || b.createdAt).getTime() -
    new Date(a.dateTime || a.createdAt).getTime()
);
```

ECMAScript requires `Array.prototype.sort` to be stable, and with the
numeric comparator above the result is the unique stable reordering that is
non-increasing in the effective timestamp; the insertion sort below computes
exactly that reordering (an element of the input goes before every
later-input element whose key is ≤ its own).  `time` abstracts
`s ↦ new Date(s).getTime()`; `b.dateTime || b.createdAt` is string
truthiness, i.e. `createdAt` is used exactly when `dateTime` is the empty
string. -/

def effKey (time : String → ℚ) (m : SavedMeal) : ℚ :=
  time (if m.dateTime = "" then m.createdAt else m.dateTime)

def insertByTime (time : String → ℚ) (x : SavedMeal) :
    List SavedMeal → List SavedMeal
  | [] => [x]
  | y :: ys =>
    if effKey time y ≤ effKey time x then x :: y :: ys
    else y :: insertByTime time x ys

def sortMealsDesc (time : String → ℚ) : List SavedMeal → List SavedMeal
  | [] => []
  | x :: xs => insertByTime time x (sortMealsDesc time xs)


/-! ## Analyze-screen working items (`FoodAnalyzeScreen.tsx`) -/

/-- `FoodItemUI` (`src/types.ts`): the pre-save, UI-facing working item of
the analyze screen (`confianca` is optional; `none` = `undefined`). -/
structure FoodItemUI where
  id : String
  nome : String
  quantidadeGramas : ℚ
  kcalPor100g : ℚ
  confianca : Option ℚ
  origem : String
deriving DecidableEq

/-- `BackendItem` (`FoodAnalyzeScreen.tsx:12-17`): one item of the vision
analysis response. -/
structure BackendItem where
  nome : String
  caloriasPorPorcao : ℚ
  porcaoDescricao : String
  confianca : ℚ
deriving DecidableEq

/-- The per-item mapping of `handleAnalyze` (`FoodAnalyzeScreen.tsx:349-356`):
```js
data.itens.map((item, index) => ({
  id: `vision-$\x7bindex\x7d`,
  nome: item.nome,
  quantidadeGramas: 100,
  kcalPor100g: Math.round(item.caloriasPorPorcao),
  confianca: item.confianca,
  origem: "vision",
}));
```
-/
def mapVisionItem (index : ℕ) (item : BackendItem) : FoodItemUI :=
  { id := "vision-" ++ toString index
    nome := item.nome
    quantidadeGramas := 100
    kcalPor100g := ((jsRound item.caloriasPorPorcao : ℤ) : ℚ)
    confianca := some item.confianca
    origem := "vision" }

/-- `calcItemCalories` (`FoodAnalyzeScreen.tsx:368-370`):
`Math.round((it.kcalPor100g * it.quantidadeGramas) / 100)`. -/
def calcItemCalories (it : FoodItemUI) : ℤ :=
  jsRound ((it.kcalPor100g * it.quantidadeGramas) / 100)

/-- `addSelectedFoodToMeal` (`FoodAnalyzeScreen.tsx:116-137`) as a function
of the modal state; `Date.now()` is abstracted by `now`.  When
`Math.round(Number(x) || 0) <= 0` the source sets an error message and
leaves the list unchanged; otherwise it appends the new manual item with
`quantidade = modalGrams > 0 ? modalGrams : 100`.  On a number `x : ℚ`,
`Number(x) || 0` is the identity, so the rounded energy is `jsRound x`. -/
def addSelectedFoodToMeal (now : ℤ) (selectedFood : Alimento)
    (modalGrams : ℚ) (items : List FoodItemUI) : List FoodItemUI :=
  if jsRound selectedFood.energy_kcal ≤ 0 then items
  else
    items ++ [{ id := "manual-" ++ toString now
                nome := selectedFood.description
                quantidadeGramas := if 0 < modalGrams then modalGrams else 100
                kcalPor100g := ((jsRound selectedFood.energy_kcal : ℤ) : ℚ)
                confianca := none
                origem := "manual" }]

/-- `updateItemQuantity` (`FoodAnalyzeScreen.tsx:378-382`): sets the grams
of the matching item to exactly the given value. -/
def updateItemQuantity (id : String) (grams : ℚ) (items : List FoodItemUI) :
    List FoodItemUI :=
  items.map (fun it =>
    if it.id = id then { it with quantidadeGramas := grams } else it)

/-- `removeItem` (`FoodAnalyzeScreen.tsx:384-386`). -/
def removeItem (id : String) (items : List FoodItemUI) : List FoodItemUI :=
  items.filter (fun it => !(it.id == id))

/-- The invariant claimed for the working item list: every item has
strictly positive grams. -/
def gramsPositive (items : List FoodItemUI) : Prop :=
  ∀ it ∈ items, 0 < it.quantidadeGramas

instance (items : List FoodItemUI) : Decidable (gramsPositive items) :=
  inferInstanceAs (Decidable (∀ it ∈ items, 0 < it.quantidadeGramas))


end Nutrilens

namespace Nutrilens

/-! ## Theorems -/

theorem jsRound_eq (q : ℚ) : jsRound q = ⌊q + 1/2⌋ := by
  rw [jsRound, Rat.floor_def', ← Rat.floor_def]

theorem jsRound_eval {q : ℚ} {n : ℤ} (h₁ : (n : ℚ) ≤ q + 1/2)
    (h₂ : q + 1/2 < (n : ℚ) + 1) : jsRound q = n := by
  rw [jsRound_eq]
  refine Int.floor_eq_iff.mpr ⟨h₁, ?_⟩
  exact_mod_cast h₂

theorem jsRound_intCast (n : ℤ) : jsRound (n : ℚ) = n := by
  refine jsRound_eval (by norm_num) (by norm_num)

theorem foldl_add_eq_sum (f : SavedMealItem → ℤ) (l : List SavedMealItem) :
    ∀ acc : ℤ, l.foldl (fun a x => a + f x) acc = acc + (l.map f).sum := by
  induction l with
  | nil => intro acc; simp
  | cons x xs ih =>
    intro acc
    simp only [List.foldl_cons, List.map_cons, List.sum_cons, ih]
    ring

/-- C1: `getItemCalories` returns `round(reportedCalories)` when
`reportedCalories > 0` and otherwise `round(kcalPer100g * grams / 100)`;
in particular, for nonnegative grams and density, a zero reported value is
always derived from grams × density. -/
theorem getItemCalories_spec :
    (∀ kcalPer100g grams calories : ℚ,
        getItemCalories kcalPer100g grams calories =
          if 0 < calories then jsRound calories
          else jsRound (kcalPer100g * grams / 100)) ∧
    (∀ kcalPer100g grams : ℚ, 0 ≤ grams → 0 ≤ kcalPer100g →
        getItemCalories kcalPer100g grams 0 =
          jsRound (kcalPer100g * grams / 100)) := by
  constructor
  · intro k g c
    by_cases h : 0 < c
    · rw [getItemCalories, if_pos ⟨h.ne', h⟩, if_pos h]
    · rw [getItemCalories, if_neg (fun hc => h hc.2), if_neg h]
  · intro k g _ _
    rw [getItemCalories, if_neg (fun hc => hc.1 rfl)]

/-- Witness for C1 at the spec's end-to-end scenario
(`kcalPer100g = 130`, `grams = 150`, `calories = 0`). -/
theorem getItemCalories_spec_witness :
    getItemCalories 130 150 0 = jsRound (130 * 150 / 100) :=
  getItemCalories_spec.2 130 150 (by decide) (by decide)

/-- C2: `getMealTotalCalories` returns `round(meal.totalCalories)` when it is
positive (ignoring the items), else the sum of the reconciled per-item
calories; on the spec's precedence scenario (`totalCalories = 500`, two items
deriving to 150 kcal each) it returns `500`, not `300`. -/
theorem getMealTotalCalories_spec :
    (∀ meal : SavedMeal,
        getMealTotalCalories meal =
          if 0 < meal.totalCalories then jsRound meal.totalCalories
          else (meal.items.map
            (fun it => getItemCalories it.kcalPer100g it.grams it.calories)).sum) ∧
    (∀ (id userId mealType dateTime createdAt i₁ i₂ : String),
        getMealTotalCalories
          { id := id, userId := userId, mealType := mealType,
            dateTime := dateTime, totalCalories := 500, photoUrl := none,
            createdAt := createdAt, photoDataUrl := none,
            items := [⟨i₁, "a", 150, 100, 0, none, "manual"⟩,
                      ⟨i₂, "b", 150, 100, 0, none, "manual"⟩] } = 500 ∧
        ([⟨i₁, "a", 150, 100, 0, none, "manual"⟩,
          ⟨i₂, "b", 150, 100, 0, none, "manual"⟩].map
            (fun it : SavedMealItem =>
              getItemCalories it.kcalPer100g it.grams it.calories)).sum = 300) := by
  have key : ∀ meal : SavedMeal,
      getMealTotalCalories meal =
        if 0 < meal.totalCalories then jsRound meal.totalCalories
        else (meal.items.map
          (fun it => getItemCalories it.kcalPer100g it.grams it.calories)).sum := by
    intro meal
    by_cases h : 0 < meal.totalCalories
    · rw [getMealTotalCalories, if_pos ⟨h.ne', h⟩, if_pos h]
    · rw [getMealTotalCalories, if_neg (fun hc => h hc.2), if_neg h,
        foldl_add_eq_sum, zero_add]
  refine ⟨key, ?_⟩
  intro id userId mealType dateTime createdAt i₁ i₂
  constructor
  · rw [key]
    simp only [if_pos (by norm_num : (0:ℚ) < 500)]
    exact_mod_cast @jsRound_eval 500 500 (by norm_num) (by norm_num)
  · have hone : getItemCalories (100:ℚ) 150 0 = 150 := by
      rw [getItemCalories, if_neg (fun hc => hc.1 rfl)]
      exact @jsRound_eval _ 150 (by norm_num) (by norm_num)
    rw [List.map_cons, List.map_cons, List.map_nil, List.sum_cons,
      List.sum_cons, List.sum_nil]
    show getItemCalories 100 150 0 + (getItemCalories 100 150 0 + 0) = 300
    rw [hone]
    omega

end Nutrilens

namespace Nutrilens

/-- C9: enum normalization is total with safe defaults and never raises:
`normalizeSource` returns "vision" exactly when the input matches "vision"
case-insensitively (the redundant explicit `=== "VISION"` disjunct of the
source is absorbed by the case-insensitive test) and "manual" for any other
value including the empty string; `normalizeMealType` lower-cases its input
and keeps it when it is one of breakfast/lunch/snack/dinner/supper/other,
returning "other" otherwise — so it always yields a valid enum member. -/
theorem enumNormalization_spec :
    (∀ s : String, normalizeSource s =
        if jsToLower s = "vision" then "vision" else "manual") ∧
    (∀ s : String, normalizeMealType s =
        if allowedMealTypes.contains (jsToLower s) then jsToLower s
        else "other") ∧
    (∀ s : String, allowedMealTypes.contains (normalizeMealType s) = true) ∧
    normalizeSource "VISION" = "vision" ∧ normalizeSource "Vision" = "vision" ∧
    normalizeSource "xyz" = "manual" ∧ normalizeSource "" = "manual" ∧
    normalizeMealType "LUNCH" = "lunch" ∧
    normalizeMealType "brunch" = "other" := by
  refine ⟨?_, ?_, ?_, by decide, by decide, by decide, by decide, by decide,
    by decide⟩
  · intro s
    by_cases hv : s = "VISION"
    · subst hv; decide
    · by_cases h : jsToLower s = "vision"
      · rw [normalizeSource, if_pos (Or.inl h), if_pos h]
      · rw [normalizeSource, if_neg (fun hc => hc.elim h hv), if_neg h]
  · intro s
    rfl
  · intro s
    rw [normalizeMealType]
    by_cases h : allowedMealTypes.contains (jsToLower s) = true
    · rw [if_pos h]
      exact h
    · rw [if_neg h]
      decide

/-- C4 (amended): the numeric payload fields `grams`, `caloriesPer100g` and
`calories` are passed through the defensive coercion `Number(x) || 0`
(failed conversion — `undefined`, non-numeric string — and `null` both give
`0`, the numeric string "42.5" gives `42.5`, numbers pass through, and no
`NaN` can reach the canonical item since the coercion result is total);
`confidence`, however, is NOT coerced: the source applies
`it.confidence ?? undefined`, which passes the value through unchanged. -/
theorem normalizeNumeric_spec :
    (∀ v : JSValue, jsToNumber v = none → numOr0 v = 0) ∧
    (∀ q : ℚ, numOr0 (JSValue.num q) = q) ∧
    numOr0 JSValue.null = 0 ∧
    numOr0 JSValue.undefined = 0 ∧
    numOr0 (JSValue.str "abc") = 0 ∧
    numOr0 (JSValue.str "42.5") = (42.5 : ℚ) ∧
    (∀ it : MealItemApi,
        (mapApiItem it).grams = numOr0 it.grams ∧
        (mapApiItem it).kcalPer100g = numOr0 it.caloriesPer100g ∧
        (mapApiItem it).calories = numOr0 it.calories ∧
        (mapApiItem it).confidence = it.confidence) := by
  refine ⟨?_, fun q => rfl, by decide, by decide, by decide, ?_,
    fun it => ⟨rfl, rfl, rfl, rfl⟩⟩
  · intro v h
    rw [numOr0, h]
    rfl
  · show (jsToNumber (JSValue.str "42.5")).getD 0 = (42.5 : ℚ)
    rw [show jsToNumber (JSValue.str "42.5") = some (mkRat 425 10) from by
      decide]
    show mkRat 425 10 = (42.5 : ℚ)
    rw [Rat.mkRat_eq_divInt, Rat.divInt_eq_div]
    norm_num

/-- Witness for C4's coercion-failure clause at the concrete input
`undefined`. -/
theorem normalizeNumeric_spec_witness :
    numOr0 JSValue.undefined = 0 :=
  normalizeNumeric_spec.1 JSValue.undefined rfl

/-- Counterexample to C4 as stated: a `null` confidence is not coerced to
the number `0` — the canonical item carries `undefined` (`none`), because
the source maps it with `?? undefined` instead of `Number(x) || 0`. -/
theorem mapApiItem_confidence_counterexample :
    (mapApiItem
      { id := "7", name := "Água", grams := JSValue.num 200,
        caloriesPer100g := JSValue.num 0, calories := JSValue.num 0,
        confidence := none, source := "MANUAL" }).confidence = none ∧
    (none : Option ℚ) ≠ some 0 := by
  decide

end Nutrilens

namespace Nutrilens

/-- C3 (amended): the two payload normalizers return a canonical `SavedMeal`
without throwing for every record whose date fields parse: `takenAt` must be
a parsable date, and `createdAt`, when present, must be parsable (when it is
missing the source falls back to `takenAt`).  There is no fallback in the
other direction: an unparsable `takenAt` makes `new Date(...).toISOString()`
throw even when `createdAt` is present and valid (see the counterexample). -/
theorem mapMeal_total_on_parsable_dates :
    (∀ (baseURL : String) (m : MealApi),
        (parseISODate m.takenAt).isSome = true →
        (parseISODate (m.createdAt.getD m.takenAt)).isSome = true →
        (mapApiMealToSavedMeal baseURL m).isOk = true) ∧
    (∀ (previewDataUrl : String) (m : MealApi),
        (parseISODate m.takenAt).isSome = true →
        (parseISODate (m.createdAt.getD m.takenAt)).isSome = true →
        (mapSaveResponseToSavedMeal previewDataUrl m).isOk = true) := by
  constructor
  · intro base m h1 h2
    rcases ht1 : parseISODate m.takenAt with _ | t1
    · rw [ht1] at h1; exact absurd h1 (by decide)
    · rcases ht2 : parseISODate (m.createdAt.getD m.takenAt) with _ | t2
      · rw [ht2] at h2; exact absurd h2 (by decide)
      · simp only [mapApiMealToSavedMeal, ht1, ht2]; rfl
  · intro pv m h1 h2
    rcases ht1 : parseISODate m.takenAt with _ | t1
    · rw [ht1] at h1; exact absurd h1 (by decide)
    · rcases ht2 : parseISODate (m.createdAt.getD m.takenAt) with _ | t2
      · rw [ht2] at h2; exact absurd h2 (by decide)
      · simp only [mapSaveResponseToSavedMeal, ht1, ht2]; rfl

/-- Witness for C3 on concrete records with parsable dates (one with
`createdAt` absent, one with it present). -/
theorem mapMeal_total_witness :
    (mapApiMealToSavedMeal "http://localhost:3000"
      { id := "m1", userId := "u1", type := "LUNCH",
        takenAt := "2024-01-15T12:30:00.000Z", createdAt := none,
        totalCalories := JSValue.num 350, imagePath := some "/uploads/1.jpg",
        items := [] }).isOk = true ∧
    (mapSaveResponseToSavedMeal "data:image/jpeg;base64,xyz"
      { id := "m1", userId := "u1", type := "lunch",
        takenAt := "2024-01-15", createdAt := some "2024-01-15T12:30:00.000Z",
        totalCalories := JSValue.num 0, imagePath := none,
        items := [] }).isOk = true :=
  ⟨mapMeal_total_on_parsable_dates.1 _ _ (by decide) (by decide),
   mapMeal_total_on_parsable_dates.2 _ _ (by decide) (by decide)⟩

/-- Counterexample to C3 as stated: a record whose `takenAt` is unparsable
makes both normalizers throw — even though its `createdAt` is present and
parsable, so there is no `takenAt ← createdAt` fallback and the mapping is
not total over records with missing/unparsable dates. -/
theorem mapMeal_unparsable_counterexample :
    (mapApiMealToSavedMeal "http://localhost:3000"
      { id := "m1", userId := "u1", type := "lunch", takenAt := "not-a-date",
        createdAt := some "2024-01-15T12:30:00.000Z",
        totalCalories := JSValue.num 100, imagePath := none,
        items := [] }).isOk = false ∧
    (mapSaveResponseToSavedMeal "data:preview"
      { id := "m1", userId := "u1", type := "lunch", takenAt := "not-a-date",
        createdAt := some "2024-01-15T12:30:00.000Z",
        totalCalories := JSValue.num 100, imagePath := none,
        items := [] }).isOk = false := by
  decide

/-- C5 (amended): in the history-load path `photoUrl` is derived exactly as
claimed — the base URL is prepended iff the relative path is present and
non-empty, an absent/empty path yields `undefined`, and a present path never
produces an empty-string URL.  In the save-response path, however, the
source copies `saved.imagePath ?? undefined` verbatim: no base-URL prefix is
applied and an empty-string path flows through (see the counterexample). -/
theorem photoUrl_spec :
    (∀ (baseURL p : String), p ≠ "" →
        derivePhotoUrlHistory baseURL (some p) = some (baseURL ++ p)) ∧
    (∀ baseURL : String,
        derivePhotoUrlHistory baseURL none = none ∧
        derivePhotoUrlHistory baseURL (some "") = none) ∧
    (∀ (baseURL p u : String),
        derivePhotoUrlHistory baseURL (some p) = some u → u ≠ "") ∧
    (∀ (baseURL : String) (m : MealApi),
        (mapApiMealToSavedMeal baseURL m).toOption.map SavedMeal.photoUrl =
          (mapApiMealToSavedMeal baseURL m).toOption.map
            (fun _ => derivePhotoUrlHistory baseURL m.imagePath)) ∧
    (∀ (previewDataUrl : String) (m : MealApi),
        (mapSaveResponseToSavedMeal previewDataUrl m).toOption.map
            SavedMeal.photoUrl =
          (mapSaveResponseToSavedMeal previewDataUrl m).toOption.map
            (fun _ => m.imagePath)) := by
  refine ⟨?_, fun b => ⟨rfl, rfl⟩, ?_, ?_, ?_⟩
  · intro b p hp
    simp [derivePhotoUrlHistory, hp]
  · intro b p u h hu
    by_cases hp : p = ""
    · rw [derivePhotoUrlHistory] at h
      simp [hp] at h
    · rw [derivePhotoUrlHistory] at h
      simp only [if_neg hp] at h
      have h' : b ++ p = u := Option.some.inj h
      have hlen : (b ++ p).length = 0 := by rw [h', hu]; rfl
      rw [String.length_append] at hlen
      have hp0 : p.length = 0 := by omega
      exact hp (String.ext (List.length_eq_zero.mp hp0))
  · intro b m
    rcases ht1 : parseISODate m.takenAt with _ | t1 <;>
      rcases ht2 : parseISODate (m.createdAt.getD m.takenAt) with _ | t2 <;>
      simp [mapApiMealToSavedMeal, ht1, ht2] <;> rfl
  · intro pv m
    rcases ht1 : parseISODate m.takenAt with _ | t1 <;>
      rcases ht2 : parseISODate (m.createdAt.getD m.takenAt) with _ | t2 <;>
      simp [mapSaveResponseToSavedMeal, ht1, ht2, derivePhotoUrlSave] <;> rfl

/-- Witness for C5 at a concrete non-empty relative path. -/
theorem photoUrl_spec_witness :
    derivePhotoUrlHistory "http://localhost:3000" (some "/uploads/1.jpg") =
      some ("http://localhost:3000" ++ "/uploads/1.jpg") ∧
    "http://localhost:3000/uploads/1.jpg" ≠ "" :=
  ⟨photoUrl_spec.1 "http://localhost:3000" "/uploads/1.jpg" (by decide),
   photoUrl_spec.2.2.1 "http://localhost:3000" "/uploads/1.jpg"
     "http://localhost:3000/uploads/1.jpg" (by decide)⟩

/-- Counterexample to C5 as stated: in the save-response path an
empty-string `imagePath` yields `photoUrl = some ""` (an empty-string URL),
and a non-empty relative path is stored un-prefixed, not under the
configured base URL. -/
theorem savePath_photoUrl_counterexample :
    ((mapSaveResponseToSavedMeal "data:preview"
      { id := "m2", userId := "u1", type := "lunch",
        takenAt := "2024-01-15T12:30:00.000Z", createdAt := none,
        totalCalories := JSValue.num 0, imagePath := some "",
        items := [] }).toOption.map SavedMeal.photoUrl) = some (some "") ∧
    ((mapSaveResponseToSavedMeal "data:preview"
      { id := "m3", userId := "u1", type := "lunch",
        takenAt := "2024-01-15T12:30:00.000Z", createdAt := none,
        totalCalories := JSValue.num 0, imagePath := some "/uploads/1.jpg",
        items := [] }).toOption.map SavedMeal.photoUrl) =
      some (some "/uploads/1.jpg") ∧
    (some "/uploads/1.jpg" : Option String) ≠
      some ("http://localhost:3000" ++ "/uploads/1.jpg") := by
  decide

end Nutrilens

namespace Nutrilens

theorem searchScan_eq (q : String) :
    ∀ (l : List Alimento) (c : ℕ), c < 50 →
      searchScan q c l =
        (l.filter (fun a =>
          containsStr (normalizeSearch a.description) q)).take (50 - c) := by
  intro l
  induction l with
  | nil => intro c _; simp [searchScan]
  | cons a rest ih =>
    intro c hc
    by_cases hm : containsStr (normalizeSearch a.description) q
    · have hf : (a :: rest).filter
          (fun x => containsStr (normalizeSearch x.description) q) =
          a :: rest.filter
            (fun x => containsStr (normalizeSearch x.description) q) := by
        simp [List.filter_cons, hm]
      rw [searchScan, if_pos hm, hf]
      by_cases hstop : 50 ≤ c + 1
      · have hc49 : c = 49 := by omega
        subst hc49
        rw [if_pos hstop]
        rfl
      · rw [if_neg hstop, ih (c + 1) (by omega)]
        rw [show 50 - c = (50 - (c + 1)) + 1 by omega]
        rfl
    · have hf : (a :: rest).filter
          (fun x => containsStr (normalizeSearch x.description) q) =
          rest.filter
            (fun x => containsStr (normalizeSearch x.description) q) := by
        simp [List.filter_cons, hm]
      rw [searchScan, if_neg hm, hf, ih c hc]

theorem filteredFoods_eq (entries : List Alimento) (q : String) :
    filteredFoods entries q =
      if normalizeSearch q = "" then entries.take 30
      else (entries.filter (fun a =>
        containsStr (normalizeSearch a.description)
          (normalizeSearch q))).take 50 := by
  by_cases hq : normalizeSearch q = ""
  · rw [filteredFoods, if_pos hq, if_pos hq]
  · rw [filteredFoods, if_neg hq, if_neg hq,
      searchScan_eq (normalizeSearch q) entries 0 (by omega)]

/-- C6: for every entry list and query, the food search returns the first 30
entries in table order when the normalized query is empty, and otherwise
exactly the entries whose case-folded diacritic-stripped (NFD + combining
mark removal) description contains the normalized query as a substring, in
table order, truncated to the first 50 matches; the entry
"Pão de queijo" matches the query "pao", and 1000 matching entries yield
exactly 50 results.  The table itself is never mutated — the search is a
pure function of its inputs. -/
theorem filteredFoods_full :
    (∀ (entries : List Alimento) (q : String),
        filteredFoods entries q =
          if normalizeSearch q = "" then entries.take 30
          else (entries.filter (fun a =>
            containsStr (normalizeSearch a.description)
              (normalizeSearch q))).take 50) ∧
    (∀ (i : ℤ) (cat : Option String) (e : ℚ),
        filteredFoods [⟨i, "Pão de queijo", cat, e⟩] "pao" =
          [⟨i, "Pão de queijo", cat, e⟩]) ∧
    (∀ (i : ℤ) (cat : Option String) (e : ℚ),
        (filteredFoods
          (List.replicate 1000 ⟨i, "abacaxi", cat, e⟩) "a").length = 50) := by
  refine ⟨filteredFoods_eq, ?_, ?_⟩
  · intro i cat e
    rw [filteredFoods_eq, if_neg (by decide)]
    have hf : ([⟨i, "Pão de queijo", cat, e⟩] : List Alimento).filter
        (fun a => containsStr (normalizeSearch a.description)
          (normalizeSearch "pao")) = [⟨i, "Pão de queijo", cat, e⟩] := by
      simp only [List.filter_cons, List.filter_nil]
      rw [if_pos (by decide)]
    rw [hf]
    rfl
  · intro i cat e
    rw [filteredFoods_eq, if_neg (by decide)]
    have hf : (List.replicate 1000 (⟨i, "abacaxi", cat, e⟩ : Alimento)).filter
        (fun a => containsStr (normalizeSearch a.description)
          (normalizeSearch "a")) =
        List.replicate 1000 ⟨i, "abacaxi", cat, e⟩ := by
      rw [List.filter_replicate,
        if_pos (show containsStr (normalizeSearch "abacaxi")
          (normalizeSearch "a") = true by decide)]
    rw [hf, List.take_replicate, List.length_replicate]
    decide

end Nutrilens

namespace Nutrilens

theorem insertByTime_perm (time : String → ℚ) (x : SavedMeal) :
    ∀ l : List SavedMeal, (insertByTime time x l).Perm (x :: l) := by
  intro l
  induction l with
  | nil => rfl
  | cons y ys ih =>
    rw [insertByTime]
    by_cases h : effKey time y ≤ effKey time x
    · rw [if_pos h]
    · rw [if_neg h]
      exact (ih.cons y).trans (List.Perm.swap x y ys)

theorem insertByTime_chain (time : String → ℚ) (x : SavedMeal) :
    ∀ l : List SavedMeal,
      List.Chain' (fun a b => effKey time b ≤ effKey time a) l →
      List.Chain' (fun a b => effKey time b ≤ effKey time a)
        (insertByTime time x l) := by
  intro l
  induction l with
  | nil => intro _; simp [insertByTime]
  | cons y ys ih =>
    intro h
    rw [insertByTime]
    by_cases hle : effKey time y ≤ effKey time x
    · rw [if_pos hle]
      exact List.Chain'.cons hle h
    · rw [if_neg hle]
      have hx : effKey time x ≤ effKey time y := (lt_of_not_le hle).le
      cases ys with
      | nil =>
        simp [insertByTime, hx]
      | cons z zs =>
        rw [List.chain'_cons] at h
        have ihz := ih h.2
        rw [insertByTime] at ihz ⊢
        by_cases hz : effKey time z ≤ effKey time x
        · rw [if_pos hz] at ihz ⊢
          exact List.Chain'.cons hx ihz
        · rw [if_neg hz] at ihz ⊢
          exact List.Chain'.cons h.1 ihz

theorem insertByTime_filter (time : String → ℚ) (x : SavedMeal) (d : ℚ) :
    ∀ l : List SavedMeal,
      (insertByTime time x l).filter (fun m => decide (effKey time m = d)) =
        if effKey time x = d then
          x :: l.filter (fun m => decide (effKey time m = d))
        else l.filter (fun m => decide (effKey time m = d)) := by
  intro l
  induction l with
  | nil =>
    by_cases hd : effKey time x = d
    · rw [insertByTime, if_pos hd]
      simp [List.filter_cons, hd]
    · rw [insertByTime, if_neg hd]
      simp [List.filter_cons, hd]
  | cons y ys ih =>
    rw [insertByTime]
    by_cases hle : effKey time y ≤ effKey time x
    · rw [if_pos hle]
      by_cases hd : effKey time x = d
      · rw [if_pos hd]
        simp [List.filter_cons, hd]
      · rw [if_neg hd]
        simp [List.filter_cons, hd]
    · rw [if_neg hle]
      have hxy : effKey time x < effKey time y := lt_of_not_le hle
      by_cases hd : effKey time x = d
      · rw [if_pos hd]
        have hy : ¬(effKey time y = d) := by
          rw [← hd]
          exact fun hc => absurd hc.symm (ne_of_lt hxy)
        simp only [List.filter_cons, hy, decide_eq_true_eq, if_neg hy, ih,
          if_pos hd]
        simp [hy]
      · rw [if_neg hd]
        by_cases hy : effKey time y = d
        · simp only [List.filter_cons, ih, if_neg hd]
        · simp only [List.filter_cons, ih, if_neg hd]

/-- C7: the history sort of `loadMealsByDay` produces a list that is a
permutation of its input, is non-increasing in effective date (occurrence
time `dateTime` when present, else save time `createdAt`) between every
adjacent pair, and is stable: for every key value, the meals carrying that
effective date appear in exactly their relative input order. -/
theorem sortMealsDesc_props (time : String → ℚ) (l : List SavedMeal) :
    (sortMealsDesc time l).Perm l ∧
    List.Chain' (fun a b => effKey time b ≤ effKey time a)
      (sortMealsDesc time l) ∧
    (∀ d : ℚ, (sortMealsDesc time l).filter
        (fun m => decide (effKey time m = d)) =
      l.filter (fun m => decide (effKey time m = d))) := by
  induction l with
  | nil => exact ⟨List.Perm.refl _, List.chain'_nil, fun d => rfl⟩
  | cons x xs ih =>
    refine ⟨?_, ?_, ?_⟩
    · rw [sortMealsDesc]
      exact (insertByTime_perm time x _).trans (ih.1.cons x)
    · rw [sortMealsDesc]
      exact insertByTime_chain time x _ ih.2.1
    · intro d
      rw [sortMealsDesc, insertByTime_filter time x d, List.filter_cons]
      by_cases hd : effKey time x = d
      · rw [if_pos hd, ih.2.2 d]
        simp [hd]
      · rw [if_neg hd, ih.2.2 d]
        simp [hd]

end Nutrilens

namespace Nutrilens

/-- C8 (amended): item creation establishes the positive-grams invariant —
a vision item is created with 100 g and a manual reference-table selection
with `modalGrams` when positive, else 100 g — and removal preserves it; but
`updateItemQuantity` stores exactly the value it is given, so user edits
preserve the invariant only when the new grams are positive (the UI call
site `FoodAnalyzeScreen.tsx:736-741` passes `Number(e.target.value) || 0`,
which is `0` for a cleared field — see the counterexample). -/
theorem gramsInvariant_spec :
    (∀ (index : ℕ) (item : BackendItem),
        0 < (mapVisionItem index item).quantidadeGramas) ∧
    (∀ (now : ℤ) (food : Alimento) (modalGrams : ℚ)
        (items : List FoodItemUI),
        gramsPositive items →
        gramsPositive (addSelectedFoodToMeal now food modalGrams items)) ∧
    (∀ (id : String) (grams : ℚ) (items : List FoodItemUI),
        gramsPositive items → 0 < grams →
        gramsPositive (updateItemQuantity id grams items)) ∧
    (∀ (id : String) (items : List FoodItemUI),
        gramsPositive items → gramsPositive (removeItem id items)) := by
  refine ⟨?_, ?_, ?_, ?_⟩
  · intro index item
    show (0:ℚ) < 100
    norm_num
  · intro now food g items h
    rw [addSelectedFoodToMeal]
    by_cases he : jsRound food.energy_kcal ≤ 0
    · rw [if_pos he]
      exact h
    · rw [if_neg he]
      intro it hit
      rcases List.mem_append.mp hit with hmem | hnew
      · exact h it hmem
      · rcases List.mem_singleton.mp hnew with rfl
        show (0:ℚ) < if 0 < g then g else 100
        by_cases hg : 0 < g
        · rw [if_pos hg]; exact hg
        · rw [if_neg hg]; norm_num
  · intro id g items h hg it hit
    rw [updateItemQuantity] at hit
    rcases List.mem_map.mp hit with ⟨it0, hmem, heq⟩
    by_cases hid : it0.id = id
    · rw [if_pos hid] at heq
      rw [← heq]
      exact hg
    · rw [if_neg hid] at heq
      rw [← heq]
      exact h it0 hmem
  · intro id items h it hit
    exact h it (List.mem_of_mem_filter hit)

/-- Witness for C8 at concrete inputs: a positive-grams edit and a manual
addition starting from concrete lists. -/
theorem gramsInvariant_spec_witness :
    gramsPositive (updateItemQuantity "vision-0" 150
      [⟨"vision-0", "Arroz", 100, 130, none, "vision"⟩]) ∧
    gramsPositive (addSelectedFoodToMeal 1700000000000
      ⟨1, "Arroz, integral, cozido", none, 124⟩ 100 []) :=
  ⟨gramsInvariant_spec.2.2.1 "vision-0" 150 _ (by decide) (by decide),
   gramsInvariant_spec.2.1 1700000000000 _ 100 [] (by decide)⟩

/-- Counterexample to C8 as stated: from a valid working list, the edit
`updateItemQuantity "vision-0" 0` (exactly what the input's
`Number(e.target.value) || 0` produces for a cleared field) yields an item
with `grams = 0`, breaking the `grams > 0` invariant. -/
theorem updateItemQuantity_breaks_invariant :
    gramsPositive
      [(⟨"vision-0", "Arroz", 100, 130, none, "vision"⟩ : FoodItemUI)] ∧
    ¬ gramsPositive (updateItemQuantity "vision-0" 0
      [⟨"vision-0", "Arroz", 100, 130, none, "vision"⟩]) := by
  decide

/-- C10: every item produced from a vision-analysis response has a default
portion of exactly 100 g, energy density `round(caloriasPorPorcao)`, source
"vision", id `vision-<index>`, the server name, and the server confidence
carried over unchanged; consequently its initially displayed calories
`calcItemCalories` equal `round(caloriasPorPorcao)` until the grams are
edited. -/
theorem visionItem_spec :
    ∀ (index : ℕ) (item : BackendItem),
      (mapVisionItem index item).quantidadeGramas = 100 ∧
      (mapVisionItem index item).kcalPor100g =
        ((jsRound item.caloriasPorPorcao : ℤ) : ℚ) ∧
      (mapVisionItem index item).origem = "vision" ∧
      (mapVisionItem index item).confianca = some item.confianca ∧
      (mapVisionItem index item).id = "vision-" ++ toString index ∧
      (mapVisionItem index item).nome = item.nome ∧
      calcItemCalories (mapVisionItem index item) =
        jsRound item.caloriasPorPorcao := by
  intro index item
  refine ⟨rfl, rfl, rfl, rfl, rfl, rfl, ?_⟩
  show jsRound (((jsRound item.caloriasPorPorcao : ℤ) : ℚ) * 100 / 100) =
    jsRound item.caloriasPorPorcao
  rw [mul_div_cancel_right₀ _ (by norm_num : (100:ℚ) ≠ 0)]
  rw [jsRound_intCast]

end Nutrilens
